import Mathlib

/-!
Verification development for the string-formatting core in
src/include/utils/detail/string.tpp.

Strings are embedded as `List Char`.  Machine-size arithmetic (`std::size_t`)
is embedded as `Nat`; the one place where unsigned wrap-around matters is
noted explicitly.  Fallible code returns `Except` or carries an
`Option FmtError` component; behavior that is undefined in the C++ source
(reading past the end of a vector, a non-void function falling off its end,
`std::log2(0)` cast to an unsigned integer) is embedded as `none` of an
`Option`, so that "this execution has no defined result" is visible in the
model rather than silently patched over.
-/

namespace UtilsFormat

/-- Embedding of `std::tolower` restricted to the ASCII range, which is how
the source uses it (specifier names and values are ASCII). -/
def tolowerChar (c : Char) : Char :=
  if 'A' ≤ c && c ≤ 'Z' then Char.ofNat (c.toNat + 32) else c

/-- Embedding of `icasecmp` (string.tpp lines 65-81): length check followed
by a character-by-character comparison after lower-casing.  The index loop of
the source is embedded as structural recursion over the two lists. -/
def icasecmpAux : List Char → List Char → Bool
  | [], [] => true
  | a :: as_, b :: bs => (tolowerChar a = tolowerChar b) && icasecmpAux as_ bs
  | _, _ => false

/-- Embedding of `icasecmp` (string.tpp lines 65-81). -/
def icasecmp (a b : List Char) : Bool :=
  if a.length = b.length then icasecmpAux a b else false

/-- Embedding of the templated `operator==(const T&, const U&)` over two
String-concept values (string.tpp lines 83-86).  The body of the source
function is literally `return false;`. -/
def stringEqOp (_a _b : List Char) : Bool :=
  false

/-- One `key=value` specifier of a format specification
(`FormatString::Specification::Specifier`). -/
structure Specifier where
  name : List Char
  value : List Char
  deriving DecidableEq, Repr

/-- A format specification in its `SpecifierList` form.  (The `GroupList`
form of the source is not needed by the claims settled here.) -/
abbrev Specification := List Specifier

/-- The error kinds raised by the embedded code, by the spec's taxonomy.
The source raises all of them as `FormattedError`; the constructor used here
records which condition raised it. -/
inductive FmtError where
  | invalidArgument (pos : Nat)
  | duplicateNamedArgument (first : Nat) (second : Nat)
  | mustProvideFormat
  | missingSpecifier
  | noSpecifierFound
  | ambiguousSpecifier
  deriving DecidableEq, Repr

/-- Modelled from the spec: the single-name `has_specifier` overload is
declared in the header and implemented outside src/ (only the variadic
overload, string.tpp lines 501-504, is in src/).  Spec section 4.1/4.3:
specifier names are case-insensitive and a specifier is present iff some
stored specifier's name matches. -/
def has_specifier (s : Specification) (nm : List Char) : Bool :=
  s.any fun sp => icasecmp sp.name nm

/-- Modelled from the spec: `get_specifier` is implemented outside src/.
Spec section 4.3: it returns the associated specifier or fails with
`MissingSpecifier` if the name is absent; lookup is the same
case-insensitive match as `has_specifier`. -/
def get_specifier (s : Specification) (nm : List Char) : Except FmtError Specifier :=
  match s.find? (fun sp => icasecmp sp.name nm) with
  | some sp => Except.ok sp
  | none => Except.error FmtError.missingSpecifier

/-- Embedding of `FormatString::Specification::one_of` (string.tpp lines
392-499).  `first` is the first alias and `rest` the parameter pack `Ts`,
so the guard `sizeof...(Ts) == 1u` of line 394 is `rest.length = 1`: a call
with exactly two aliases is short-circuited to `get_specifier(first)`.
Otherwise the source counts the aliases that are present, raises the
no-specifier error when none is, the ambiguous error when more than one is,
and returns the specifier of the first present alias when exactly one is. -/
def one_of (s : Specification) (first : List Char) (rest : List (List Char)) :
    Except FmtError Specifier :=
  if rest.length = 1 then get_specifier s first
  else
    let names := first :: rest
    let valid_specifier_count := (names.filter fun nm => has_specifier s nm).length
    if valid_specifier_count = 0 then Except.error FmtError.noSpecifierFound
    else if valid_specifier_count > 1 then Except.error FmtError.ambiguousSpecifier
    else
      match names.find? (fun nm => has_specifier s nm) with
      | some nm => get_specifier s nm
      | none => Except.error FmtError.noSpecifierFound

/-- A parsed placeholder (spec section 3, used throughout
`FormatString::format`).  `position` is an offset into `m_format` where the
formatted value is spliced in. -/
structure Placeholder where
  identifier_index : Nat
  specification_index : Nat
  position : Nat
  formatted : Bool
  deriving DecidableEq, Repr

/-- A placeholder identifier: auto-numbered, positional, or named. -/
inductive Identifier where
  | auto : Identifier
  | position (index : Nat) : Identifier
  | name (text : List Char) : Identifier
  deriving DecidableEq, Repr

/-- The caller-visible state of a `FormatString` object after parsing: the
text buffer with the placeholder spans stripped out, the placeholder list,
and the identifier and specification tables the placeholders index into.
`FormatString::parse` itself is outside the claims; the claims below
construct parsed states directly. -/
structure FormatString where
  m_format : List Char
  m_placeholders : List Placeholder
  m_identifiers : List Identifier
  m_specifications : List Specification
  deriving DecidableEq, Repr

/-- An argument passed to `FormatString::format`, restricted to the shapes
the claims need: a plain string-typed value (whose `Formatter` provides the
full Tier B `reserve`/`format_to` suite), a value of a type whose
`Formatter` provides `parse` but neither `format` nor the Tier B pair
(the `throw` at string.tpp lines 173 and 363 fires for it), and a
`NamedArgument` wrapping a string. -/
inductive Arg where
  | plain (s : List Char) : Arg
  | bad : Arg
  | named (nm : List Char) (s : List Char) : Arg
  deriving DecidableEq, Repr

/-- Whether the argument is a `NamedArgument<T>`
(`detail::is_named_argument`). -/
def Arg.isNamed : Arg → Bool
  | .named _ _ => true
  | _ => false

/-- Whether the argument is a plain (unnamed) string value. -/
def Arg.isPlain : Arg → Bool
  | .plain _ => true
  | _ => false

/-- The text `format_to` writes for the argument under the default (empty)
format specification: for a string value the `StringFormatter` with default
justification and zero width writes the value itself (string.tpp lines
1556-1581). -/
def Arg.formattedText : Arg → List Char
  | .plain s => s
  | .named _ s => s
  | .bad => []

/-- `Formatter::reserve` for the argument under the default specification:
`StringFormatter::reserve` returns `max(length, width)` with `width = 0`
(string.tpp lines 1546-1549 and 1580).  For the parse-only type the
`PlaceholderFormatter` length field keeps its initial value 0 (string.tpp
lines 30-44, 130-133). -/
def Arg.reserveLen : Arg → Nat
  | .plain s => max s.length 0
  | .named _ s => max s.length 0
  | .bad => 0

/-- `std::string::insert(pos, s)`: splice `s` into `buf` at offset `pos`.
All uses in the embedded executions have `pos ≤ buf.length`. -/
def insertAt (buf : List Char) (pos : Nat) (s : List Char) : List Char :=
  buf.take pos ++ s ++ buf.drop pos

/-- `std::string::substr(start, len)`. -/
def substr (buf : List Char) (start len : Nat) : List Char :=
  (buf.drop start).take len

/-- Mark a placeholder as formatted (`placeholder.formatted = true`). -/
def markFormatted (ph : Placeholder) : Placeholder :=
  { ph with formatted := true }

/-- The check of string.tpp lines 113-117: scan the argument tuple in order
and report the position of the first `NamedArgument`.  Note the source
throws for every `NamedArgument`, with no exemption for reserved `__`
names. -/
def firstNamedIndex : List Arg → Nat → Option Nat
  | [], _ => none
  | a :: rest, i => if a.isNamed then some i else firstNamedIndex rest (i + 1)

/-- The bounds-relevant accesses of the formatter-initialization loop of the
auto-numbered branch (string.tpp lines 123-135): for every `i` below the
argument count the loop reads `m_placeholders[i]`, then the identifier and
specification entries that placeholder indexes, and `std::get<I>` of the
argument tuple.  A `false` result means some access was past the end of its
vector (undefined behavior in the source). -/
def autoInitCheck (t : FormatString) (args : List Arg) : List Nat → Bool
  | [] => true
  | i :: rest =>
    match t.m_placeholders.get? i with
    | none => false
    | some ph =>
      (t.m_identifiers.get? ph.identifier_index).isSome
        && (t.m_specifications.get? ph.specification_index).isSome
        && (args.get? i).isSome
        && autoInitCheck t args rest

/-- The placeholder-formatting loop of the auto-numbered branch (string.tpp
lines 143-181).  The source iterates `i` from 0 to the argument count,
reading `m_placeholders[i]` and writing only that element's `formatted`
flag; this is embedded as simultaneous structural recursion over the
argument/length pairs and the placeholder list, reconstructing the updated
placeholder list as it returns.  Outcomes: `none` embeds an out-of-bounds
`m_placeholders[i]` access; an `FmtError.mustProvideFormat` component
embeds the throw of line 173, with the buffer and placeholder list in the
state they had at the throw (the insertions already performed stay). -/
def autoFormatLoop :
    List (Arg × Nat) → List Placeholder → List Char → Nat →
    Option ((List Char × List Placeholder × Nat) × Option FmtError)
  | [], phs, buf, off => some ((buf, phs, off), none)
  | _ :: _, [], _, _ => none
  | (arg, len) :: rest, ph :: phrest, buf, off =>
    match arg with
    | .bad => some ((buf, ph :: phrest, off), some FmtError.mustProvideFormat)
    | _ =>
      let write_position := ph.position + off
      let buf2 := if len > 0 then insertAt buf write_position arg.formattedText else buf
      match autoFormatLoop rest phrest buf2 (off + len) with
      | none => none
      | some ((buf3, phrest2, off2), e) =>
        some ((buf3, markFormatted ph :: phrest2, off2), e)

/-- The trailing loop of the auto-numbered branch (string.tpp lines
184-186): placeholders from the argument count onward get their stored
position advanced by the total inserted length. -/
def bumpSuffix (phs : List Placeholder) (k off : Nat) : List Placeholder :=
  phs.take k ++ (phs.drop k).map fun ph => { ph with position := ph.position + off }

/-- The erase at the end of `format` (string.tpp lines 376-381): formatted
placeholders are removed, order preserved. -/
def eraseFormatted (phs : List Placeholder) : List Placeholder :=
  phs.filter fun ph => !ph.formatted

/-- The auto-numbered branch of `FormatString::format` (string.tpp lines
111-187): reject any `NamedArgument`, initialize one formatter per argument
(`formatter.parse` is the identity on the default specifications used here,
and `formatter.length` becomes `reserve(value)` for Tier B types), then
splice each formatted value into the buffer and advance the positions of
the leftover placeholders. -/
def autoBranch (t : FormatString) (args : List Arg) :
    Option (FormatString × Option FmtError) :=
  match firstNamedIndex args 0 with
  | some i => some (t, some (FmtError.invalidArgument i))
  | none =>
    if autoInitCheck t args (List.range args.length) then
      let lengths := args.map Arg.reserveLen
      match autoFormatLoop (args.zip lengths) t.m_placeholders t.m_format 0 with
      | none => none
      | some ((buf, phs, _), some e) =>
        some ({ t with m_format := buf, m_placeholders := phs }, some e)
      | some ((buf, phs, off), none) =>
        let phs2 := bumpSuffix phs args.length off
        some ({ t with m_format := buf, m_placeholders := eraseFormatted phs2 }, none)
    else none

/-- `detail::PlaceholderIndices` (string.tpp lines 49-52): which argument a
placeholder resolved to and which cached formatter it uses.  The struct has
no constructor, so `std::vector::resize` value-initializes new elements to
all-zero. -/
structure PlaceholderIndices where
  argument_index : Nat
  formatter_index : Nat
  deriving DecidableEq, Repr

/-- `detail::PlaceholderFormatter<T>` (string.tpp lines 28-47): the cached
formatter for one `(argument type, specification index)` pair.  `start`
embeds the `std::size_t` cache sentinel: `none` is the SIZE_MAX initial
value, so `initialized()` is `start.isSome`. -/
structure PlaceholderFormatter where
  length : Nat
  specification_index : Nat
  start : Option Nat
  deriving DecidableEq, Repr

/-- The argument-ordering check of the positional/named branch (string.tpp
lines 189-206): every plain argument must precede every `NamedArgument`;
on success the number of plain arguments is returned, otherwise the
position of the offending plain argument. -/
def orderCheckLoop : List Arg → Nat → Bool → Nat → Except FmtError Nat
  | [], count, _, _ => Except.ok count
  | a :: rest, count, parsedNamed, idx =>
    if a.isNamed then orderCheckLoop rest count true (idx + 1)
    else if parsedNamed then Except.error (FmtError.invalidArgument idx)
    else orderCheckLoop rest (count + 1) parsedNamed (idx + 1)

/-- Inner scan of the duplicate-named-argument check (string.tpp lines
213-221): find the first argument among positions `js` whose name equals
`nm`. -/
def findDupInner (args : List Arg) (nm : List Char) : List Nat → Option Nat
  | [] => none
  | j :: rest =>
    match args.get? j with
    | some (Arg.named nm2 _) =>
      if nm2 = nm then some j else findDupInner args nm rest
    | _ => findDupInner args nm rest

/-- Outer scan of the duplicate-named-argument check (string.tpp lines
209-223): for each named argument position `i`, scan positions after it for
the same name; the first duplicate pair found (in loop order) is reported. -/
def findDupOuter (args : List Arg) : List Nat → Option (Nat × Nat)
  | [] => none
  | i :: rest =>
    match args.get? i with
    | some (Arg.named nm _) =>
      match findDupInner args nm rest with
      | some j => some (i, j)
      | none => findDupOuter args rest
    | _ => findDupOuter args rest

/-- Scan for the argument a named identifier resolves to (string.tpp lines
245-251): every named argument with a matching name overwrites the index,
so the last match wins. -/
def nameScanLoop (args : List Arg) (nm : List Char) : List Nat → Nat → Nat
  | [], cur => cur
  | j :: rest, cur =>
    match args.get? j with
    | some (Arg.named nm2 _) =>
      nameScanLoop args nm rest (if nm2 = nm then j else cur)
    | _ => nameScanLoop args nm rest cur

/-- Resolution of one placeholder identifier to an argument index
(string.tpp lines 234-252).  The sentinel for "no argument supplied" is the
argument count.  An `auto` identifier cannot occur in this branch of a
well-formed template; the source would scan for its (empty) name and find
nothing, leaving the sentinel. -/
def resolveIdentifier (args : List Arg) (positional_count : Nat) :
    Identifier → Nat
  | Identifier.position p => if p < positional_count then p else args.length
  | Identifier.name nm =>
    nameScanLoop args nm ((List.range args.length).drop positional_count) args.length
  | Identifier.auto => args.length

/-- The resolution loop of string.tpp lines 230-256.  CRUCIAL DETAIL of the
source: `placeholder_indices` was already `resize`d to the placeholder
count (line 228), and the loop appends the computed entries with
`emplace_back` (line 254), so the computed entries occupy indices from the
placeholder count onward while the value-initialized (all-zero) entries
stay at indices 0 .. placeholder count - 1. -/
def buildPlaceholderIndices (t : FormatString) (args : List Arg)
    (positional_count : Nat) : Option (List PlaceholderIndices) :=
  (t.m_placeholders.mapM fun ph =>
    (t.m_identifiers.get? ph.identifier_index).map fun ident =>
      PlaceholderIndices.mk (resolveIdentifier args positional_count ident) 0).map
    fun computed => List.replicate t.m_placeholders.length ⟨0, 0⟩ ++ computed

/-- Linear search of the per-argument formatter vector for an entry with the
given specification index (string.tpp lines 285-291). -/
def findFormatter : List PlaceholderFormatter → Nat → Nat → Option Nat
  | [], _, _ => none
  | r :: rest, sidx, j =>
    if r.specification_index = sidx then some j else findFormatter rest sidx (j + 1)

/-- The formatter-initialization loop of the positional/named branch
(string.tpp lines 268-303), iterating `i` over the placeholder count: read
`placeholder_indices[i]` (one of the zero entries left by the resize bug),
skip if its argument index is the sentinel, otherwise look up or create the
formatter for that argument keyed by `m_placeholders[i].specification_index`
and record the formatter index back into `placeholder_indices[i]`.
`none` embeds an out-of-bounds table access. -/
def posInitLoop (t : FormatString) (args : List Arg) :
    List Nat → List PlaceholderIndices → List (List PlaceholderFormatter) →
    Option (List PlaceholderIndices × List (List PlaceholderFormatter))
  | [], pidx, fs => some (pidx, fs)
  | i :: rest, pidx, fs =>
    match pidx.get? i with
    | none => none
    | some idc =>
      if idc.argument_index = args.length then posInitLoop t args rest pidx fs
      else
        match t.m_placeholders.get? i with
        | none => none
        | some ph =>
          match t.m_identifiers.get? ph.identifier_index,
                t.m_specifications.get? ph.specification_index,
                args.get? idc.argument_index,
                fs.get? idc.argument_index with
          | some _, some _, some arg, some recs =>
            match findFormatter recs ph.specification_index 0 with
            | some j =>
              posInitLoop t args rest (pidx.set i { idc with formatter_index := j }) fs
            | none =>
              posInitLoop t args rest
                (pidx.set i { idc with formatter_index := recs.length })
                (fs.set idc.argument_index
                  (recs ++ [⟨arg.reserveLen, ph.specification_index, none⟩]))
          | _, _, _, _ => none

/-- The placeholder-formatting loop of the positional/named branch
(string.tpp lines 310-372).  Unresolved placeholders get their position
advanced (line 317); resolved ones splice either the cached substring of
the buffer (line 330) or the freshly formatted text (lines 335-337), and
the formatter's cache start is set to the write position in either case
(line 367).  The parse-only argument type hits the throw of line 363 with
the buffer and placeholder list as mutated so far. -/
def posFormatLoop (args : List Arg) :
    List Nat → List PlaceholderIndices → List (List PlaceholderFormatter) →
    List Char → List Placeholder → Nat →
    Option ((List Char × List Placeholder × Nat) × Option FmtError)
  | [], _, _, buf, phs, off => some ((buf, phs, off), none)
  | i :: rest, pidx, fs, buf, phs, off =>
    match pidx.get? i, phs.get? i with
    | some idc, some ph =>
      if idc.argument_index = args.length then
        posFormatLoop args rest pidx fs buf
          (phs.set i { ph with position := ph.position + off }) off
      else
        match args.get? idc.argument_index, fs.get? idc.argument_index with
        | some arg, some recs =>
          match recs.get? idc.formatter_index with
          | none => none
          | some fm =>
            match arg with
            | Arg.bad => some ((buf, phs, off), some FmtError.mustProvideFormat)
            | _ =>
              let write_position := ph.position + off
              let buf2 :=
                if fm.length > 0 then
                  match fm.start with
                  | some st => insertAt buf write_position (substr buf st fm.length)
                  | none => insertAt buf write_position arg.formattedText
                else buf
              let recs2 := recs.set idc.formatter_index { fm with start := some write_position }
              posFormatLoop args rest pidx (fs.set idc.argument_index recs2) buf2
                (phs.set i (markFormatted ph)) (off + fm.length)
        | _, _ => none
    | _, _ => none

/-- The positional/named branch of `FormatString::format` (string.tpp lines
188-373 plus the shared erase of lines 376-381). -/
def positionalBranch (t : FormatString) (args : List Arg) :
    Option (FormatString × Option FmtError) :=
  match orderCheckLoop args 0 false 0 with
  | Except.error e => some (t, some e)
  | Except.ok positional_count =>
    match findDupOuter args ((List.range args.length).drop positional_count) with
    | some (i, j) => some (t, some (FmtError.duplicateNamedArgument i j))
    | none =>
      match buildPlaceholderIndices t args positional_count with
      | none => none
      | some pidx0 =>
        match posInitLoop t args (List.range t.m_placeholders.length) pidx0
            (List.replicate args.length []) with
        | none => none
        | some (pidx1, fs1) =>
          match posFormatLoop args (List.range t.m_placeholders.length) pidx1 fs1
              t.m_format t.m_placeholders 0 with
          | none => none
          | some ((buf, phs, _), some e) =>
            some ({ t with m_format := buf, m_placeholders := phs }, some e)
          | some ((buf, phs, _), none) =>
            some ({ t with m_format := buf, m_placeholders := eraseFormatted phs }, none)

/-- `FormatString::format` (string.tpp lines 94-385).  With no arguments the
template is returned as is (lines 99-102); with arguments, the branch is
chosen by the identifier type of the first placeholder (line 111); with no
placeholders only the erase of lines 376-381 runs.  `none` embeds undefined
behavior (an out-of-bounds vector access) during the call. -/
def formatCall (t : FormatString) (args : List Arg) :
    Option (FormatString × Option FmtError) :=
  if args.isEmpty then some (t, none)
  else
    match t.m_placeholders.get? 0 with
    | none => some ({ t with m_placeholders := eraseFormatted t.m_placeholders }, none)
    | some ph0 =>
      match t.m_identifiers.get? ph0.identifier_index with
      | none => none
      | some Identifier.auto => autoBranch t args
      | some _ => positionalBranch t args

/-- `IntegerFormatter<T>::Representation`. -/
inductive Representation where
  | decimal | binary | hexadecimal
  deriving DecidableEq, Repr

/-- `IntegerFormatter<T>::Sign`. -/
inductive Sign where
  | negativeOnly | aligned | both
  deriving DecidableEq, Repr

/-- `Justification` as shared by the formatters. -/
inductive Justification where
  | left | right | center
  deriving DecidableEq, Repr

/-- Modelled from the spec: `detail::apply_justification` (declared at
string.tpp line 57) is implemented outside src/.  Spec section 4.4: the
value occupies `length` characters of a field of `total` characters, the
rest is filled with the fill character; left justification puts the value
first, right puts it last, center splits the fill.  The embedding returns
the full field contents given the value's characters. -/
def apply_justification (j : Justification) (fill : Char) (total : Nat)
    (content : List Char) : List Char :=
  match j with
  | Justification.left => content ++ List.replicate (total - content.length) fill
  | Justification.right => List.replicate (total - content.length) fill ++ content
  | Justification.center =>
    List.replicate ((total - content.length) / 2) fill ++ content ++
      List.replicate (total - content.length - (total - content.length) / 2) fill

/-- The state of an `IntegerFormatter<T>` after `parse`.  `digits = 0`
plays the role of the unset value (the source tests `if (digits)`), while
`use_separator_character` and `group_size` are `std::optional` in the
source.  The trailing-token rename: the source field is the base-prefix
flag tested at string.tpp lines 790-793. -/
structure IntegerFormatter where
  representation : Representation
  sign : Sign
  justification : Justification
  width : Nat
  fill_character : Char
  use_separator_character : Option Bool
  group_size : Option Nat
  use_base_prefix_flag : Bool
  digits : Nat
  deriving DecidableEq, Repr

/-- The default-constructed / default-parsed `IntegerFormatter`. -/
def IntegerFormatter.mkDefault : IntegerFormatter :=
  ⟨Representation.decimal, Sign.negativeOnly, Justification.left, 0, ' ',
   none, none, false, 0⟩

/-- The separator-character resolution of `to_binary` (string.tpp lines
744-774): disabled unless `use_separator_character` is explicitly true, and
a group size explicitly given as 0 disables it again; the default group
size is 4. -/
def sepConfig (useSep : Option Bool) (gs : Option Nat) : Bool × Nat :=
  match useSep with
  | none => (false, 0)
  | some false => (false, 0)
  | some true =>
    match gs with
    | none => (true, 4)
    | some 0 => (false, 0)
    | some g => (true, g)

/-- Fuel-driven helper for `log2floor`; the fuel starts at the argument
itself, which bounds the number of halvings. -/
def log2floorAux : Nat → Nat → Nat
  | 0, _ => 0
  | fuel + 1, n => if n ≥ 2 then log2floorAux fuel (n / 2) + 1 else 0

/-- `std::floor(std::log2(n))` for a positive integer `n`: the number of
halvings until the value drops below 2. -/
def log2floor (n : Nat) : Nat :=
  log2floorAux n n

/-- The minimum character count of the binary representation (string.tpp
lines 719-727): the full storage width for negative values (two's
complement), `floor(log2(value)) + 1` for positive values.  For value 0 the
source computes `std::floor(std::log2(0))` (negative infinity) and casts it
to `std::size_t`, which is undefined: embedded as `none`. -/
def binaryNumChars (bits : Nat) (value : Int) : Option Nat :=
  if value < 0 then some bits
  else if value = 0 then none
  else some (log2floor value.toNat + 1)

/-- The `digits` override of string.tpp lines 734-742: a smaller requested
digit count truncates from the most significant end; a larger one pads in
front.  Returns (character count, padding count). -/
def digitsOverride (digits nc : Nat) : Nat × Nat :=
  if digits ≠ 0 then
    (if nc ≥ digits then (digits, 0) else (nc, digits - nc))
  else (nc, 0)

/-- The separator count of string.tpp lines 777-786: one separator per full
group, minus one when the character count is a positive multiple of the
group size. -/
def separatorCount (useSep : Bool) (gsize nc : Nat) : Nat :=
  if useSep then nc / gsize - (if nc ≠ 0 && nc % gsize = 0 then 1 else 0) else 0

/-- `IntegerFormatter<T>::to_binary` with a null context: the returned
capacity (string.tpp lines 716-794 and 842), for a `T` of `bits` stored
bits.  `none` embeds the undefined `log2(0)` path. -/
def IntegerFormatter.to_binary_capacity (f : IntegerFormatter) (bits : Nat)
    (value : Int) : Option Nat :=
  (binaryNumChars bits value).map fun nc0 =>
    let (nc, npad) := digitsOverride f.digits nc0
    let (useSep, gsize) := sepConfig f.use_separator_character f.group_size
    let capacity := nc + npad + separatorCount useSep gsize nc +
      (if f.use_base_prefix_flag then 2 else 0)
    max capacity f.width

/-- `IntegerFormatter<T>::to_hexadecimal` with a null context: the returned
capacity (string.tpp lines 846-925 and 1035), mirroring the binary version
with 4 bits per character. -/
def hexNumChars (bits : Nat) (value : Int) : Option Nat :=
  if value < 0 then some (bits / 4)
  else if value = 0 then none
  else some (log2floor value.toNat / 4 + 1)

/-- `IntegerFormatter<T>::to_hexadecimal` capacity computation. -/
def IntegerFormatter.to_hexadecimal_capacity (f : IntegerFormatter) (bits : Nat)
    (value : Int) : Option Nat :=
  (hexNumChars bits value).map fun nc0 =>
    let (nc, npad) := digitsOverride f.digits nc0
    let (useSep, gsize) := sepConfig f.use_separator_character f.group_size
    let capacity := nc + npad + separatorCount useSep gsize nc +
      (if f.use_base_prefix_flag then 2 else 0)
    max capacity f.width

/-- `IntegerFormatter<T>::reserve` (string.tpp lines 684-694): a switch on
the representation whose `Decimal` case is `break;` with no return, so for
the default decimal representation control falls off the end of a non-void
function - undefined behavior, embedded as `none`.  (`to_decimal`, lines
710-713, is an empty stub.) -/
def IntegerFormatter.reserve (f : IntegerFormatter) (bits : Nat) (value : Int) :
    Option Nat :=
  match f.representation with
  | Representation.decimal => none
  | Representation.binary => f.to_binary_capacity bits value
  | Representation.hexadecimal => f.to_hexadecimal_capacity bits value

/-- The two's-complement bit of `value` at position `k` (from the least
significant end) for a `bits`-bit storage type: the source reads it with an
arithmetic shift, `(value >> k) & 1`. -/
def twosComplementBit (bits : Nat) (value : Int) (k : Nat) : Nat :=
  (Int.emod value (2 ^ bits)).toNat / 2 ^ k % 2

/-- The binary digit buffer of string.tpp lines 800-805: `nc` characters,
most significant first. -/
def binaryDigitChars (bits nc : Nat) (value : Int) : List Char :=
  (List.range nc).map fun i =>
    if twosComplementBit bits value (nc - 1 - i) = 1 then '1' else '0'

/-- `std::size_t` subtraction, which wraps modulo 2^64; the separator
condition of string.tpp lines 816 and 824 computes
`(num_characters - current) % group_size` in this arithmetic. -/
def sub64 (a b : Nat) : Nat :=
  (a + 2 ^ 64 - b % 2 ^ 64) % 2 ^ 64

/-- The separator character for binary and hexadecimal groups, an ASCII
single quote (string.tpp lines 817, 825). -/
def groupSeparatorChar : Char :=
  Char.ofNat 39

/-- Interleave separators into the padding+digit character stream exactly as
the loops of string.tpp lines 812-830 do: a separator is written before the
character at stream position `current` whenever `current` is nonzero and
`(nc - current) % gsize == 0` in `std::size_t` arithmetic. -/
def interleaveSeparators (nc gsize : Nat) (cs : List Char) : List Char :=
  ((List.range cs.length).zip cs).foldr
    (fun p acc =>
      if p.1 ≠ 0 && sub64 nc p.1 % gsize = 0 then groupSeparatorChar :: p.2 :: acc
      else p.2 :: acc) []

/-- The characters `to_binary` writes for the value itself (base prefix,
front padding, digits, separators), before justification fill (string.tpp
lines 795-840). -/
def IntegerFormatter.to_binary_content (f : IntegerFormatter) (bits : Nat)
    (value : Int) : Option (List Char) :=
  (binaryNumChars bits value).map fun nc0 =>
    let (nc, npad) := digitsOverride f.digits nc0
    let (useSep, gsize) := sepConfig f.use_separator_character f.group_size
    let padChar := if value < 0 then '1' else '0'
    let stream := List.replicate npad padChar ++ binaryDigitChars bits nc value
    let body := if useSep then interleaveSeparators nc gsize stream else stream
    (if f.use_base_prefix_flag then ['0', 'b'] else []) ++ body

/-- The full contents of the `FormattingContext` of size `reserve(value)`
after `IntegerFormatter<T>::format_to` (string.tpp lines 696-708): the
decimal case of the switch writes nothing (`to_decimal` is an empty stub),
the binary case writes the justified binary content.  The hexadecimal
write path depends on `detail::nibble_to_hexadecimal`, which is implemented
outside src/ and is not needed by the claims settled here. -/
def IntegerFormatter.format_to_writes (f : IntegerFormatter) (bits : Nat)
    (value : Int) : Option (List Char) :=
  match f.representation with
  | Representation.decimal => some []
  | Representation.binary =>
    (f.to_binary_capacity bits value).bind fun cap =>
      (f.to_binary_content bits value).map fun content =>
        apply_justification f.justification f.fill_character cap content
  | Representation.hexadecimal => none

/-- `FloatingPointFormatter<T>::format_to`, significant-figure selection
(string.tpp lines 1372-1375): the default, used when no precision specifier
was parsed (`precision` stays 0), is the literal constant 6 for every
floating-point type. -/
def num_significant_figures (precision : Nat) : Nat :=
  if precision = 0 then 6 else precision

/-- The precision handed to `std::to_chars` (string.tpp line 1392):
`std::clamp(num_significant_figures, 0, std::numeric_limits<T>::digits10)`,
where `digits10` is the type's guaranteed round-trip decimal digit count
(6 for `float`, 15 for `double`).  The lower clamp bound is vacuous. -/
def conversion_precision (digits10 precision : Nat) : Nat :=
  min (num_significant_figures precision) digits10

/-- The "fake precision" padding count (string.tpp lines 1403 and
1470-1473): when the requested significant figures exceed the conversion
precision, the remainder is appended as literal zeros. -/
def fake_precision_zeros (digits10 precision : Nat) : Nat :=
  num_significant_figures precision - conversion_precision digits10 precision

/-- The fractional digits emitted by the fixed-representation path of
`FloatingPointFormatter<T>::format_to` (string.tpp lines 1440-1473):
`std::to_chars` - an external numeric-to-text collaborator per spec section
1 - produces exactly `conversion_precision` digits after the point
(`convDigits` here), and the loop of lines 1471-1473 appends the fake
precision zeros. -/
def fixedFractionOutput (digits10 precision : Nat) (convDigits : List Char) :
    List Char :=
  convDigits ++ List.replicate (fake_precision_zeros digits10 precision) '0'

/-- ASCII opening brace, written by the unordered-map formatter. -/
def openBraceChar : Char :=
  Char.ofNat 123

/-- ASCII closing brace. -/
def closeBraceChar : Char :=
  Char.ofNat 125

/-- ASCII single quote, the quoting character of the unordered-map
formatter (string.tpp lines 1672-1684). -/
def singleQuoteChar : Char :=
  Char.ofNat 39

/-- The empty-map rendering of `Formatter<std::unordered_map>::format`
(string.tpp lines 1614-1616). -/
def emptyMapText : List Char :=
  [openBraceChar, ' ', closeBraceChar]

/-- One element of the map body as written by the loop of string.tpp lines
1670-1688: quote, key, quote, colon, space, quote, value, quote, comma,
space.  The quotes are written unconditionally, whatever the key and value
types are. -/
def mapEntryChunk (k v : List Char) : List Char :=
  singleQuoteChar ::
    (k ++ [singleQuoteChar, ':', ' ', singleQuoteChar] ++ v ++
      [singleQuoteChar, ',', ' '])

/-- The overwrite of string.tpp lines 1690-1692: the trailing comma and
space are replaced by a space and the closing brace. -/
def overwriteTrailing (body : List Char) : List Char :=
  body.take (body.length - 2) ++ [' ', closeBraceChar]

/-- `Formatter<std::unordered_map>::format` on the branch where both the
key and the value type provide the Tier B suite (string.tpp lines
1612-1692), assembled from the per-element formatted texts in the
container's iteration order. -/
def unordered_map_format (formattedPairs : List (List Char × List Char)) :
    List Char :=
  if formattedPairs = [] then emptyMapText
  else
    overwriteTrailing
      ([openBraceChar, ' '] ++
        (formattedPairs.map fun p => mapEntryChunk p.1 p.2).flatten)

/-- `Formatter<std::unordered_map<int, int>>::format` with the key and
value formatters configured by `parse` (string.tpp lines 1602-1610):
each key and value is written through the Tier B `reserve`/`format_to`
pair of its `IntegerFormatter` into a slice of exactly `reserve` characters
(lines 1649-1692). -/
def unordered_map_format_int (bits : Nat) (keyF valF : IntegerFormatter)
    (entries : List (Int × Int)) : Option (List Char) :=
  (entries.mapM fun kv =>
    (keyF.format_to_writes bits kv.1).bind fun k =>
      (valF.format_to_writes bits kv.2).map fun v => (k, v)).map
    unordered_map_format

/-- `Formatter<std::unordered_map>::reserve` (string.tpp lines 1740-1743):
it returns the literal constant 0. -/
def unordered_map_reserve : Nat :=
  0

/-- `Formatter<std::unordered_map>::format_to` (string.tpp lines
1745-1747): the body is empty, so no characters are written. -/
def unordered_map_format_to_writes : List Char :=
  []

/-- The default (empty) format specification, as produced for a placeholder
with no `:spec` part. -/
def specDefault : Specification :=
  []

/-- The parsed state of the template `"{1} {0} {1}"`: the buffer keeps the
two literal spaces, the three placeholders sit at offsets 0, 1 and 2 and
share the one (default) specification; the identifier table holds the two
distinct positional identifiers. -/
def tmplPositionalReuse : FormatString :=
  ⟨[' ', ' '],
   [⟨0, 0, 0, false⟩, ⟨1, 0, 1, false⟩, ⟨0, 0, 2, false⟩],
   [Identifier.position 1, Identifier.position 0],
   [specDefault]⟩

/-- The parsed state of the auto-numbered template `"{} {}"`: one literal
space, two placeholders at offsets 0 and 1. -/
def tmplAutoTwo : FormatString :=
  ⟨[' '],
   [⟨0, 0, 0, false⟩, ⟨0, 0, 1, false⟩],
   [Identifier.auto],
   [specDefault]⟩

/-- The parsed state of the auto-numbered template `"{}"`: empty buffer,
one placeholder at offset 0. -/
def tmplAutoOne : FormatString :=
  ⟨[],
   [⟨0, 0, 0, false⟩],
   [Identifier.auto],
   [specDefault]⟩

/-- A reserved argument name, `"__src"`: it begins with the double
underscore that spec section 6 reserves for internal argument injection. -/
def reservedName : List Char :=
  ['_', '_', 's', 'r', 'c']

/-- An `IntegerFormatter` whose specification selected the binary
representation, everything else left at its default. -/
def binaryIntFormatter : IntegerFormatter :=
  { IntegerFormatter.mkDefault with representation := Representation.binary }

/-- The specifier name `"width"`. -/
def widthName : List Char :=
  ['w', 'i', 'd', 't', 'h']

/-- The specifier name `"w"`. -/
def wName : List Char :=
  ['w']

/-- The specifier name `"wid"`, a third alias used to exercise the general
path of `one_of`. -/
def widName : List Char :=
  ['w', 'i', 'd']

/-- A specification containing both `width=5` and `w=10`. -/
def specWidthBoth : Specification :=
  [⟨widthName, ['5']⟩, ⟨wName, ['1', '0']⟩]

/-- A specification containing only `w=10`. -/
def specOnlyW : Specification :=
  [⟨wName, ['1', '0']⟩]

/-- Character-wise lower-cased agreement of two equal-length lists is what
the comparison loop of `icasecmp` decides. -/
theorem icasecmpAux_eq_true_iff :
    ∀ {a b : List Char}, a.length = b.length →
      (icasecmpAux a b = true ↔ a.map tolowerChar = b.map tolowerChar)
  | [], [], _ => by simp [icasecmpAux]
  | [], _ :: _, h => by simp at h
  | _ :: _, [], h => by simp at h
  | a :: as_, b :: bs, h => by
    have ih := icasecmpAux_eq_true_iff (a := as_) (b := bs) (by simpa using h)
    simp [icasecmpAux, ih, Bool.and_eq_true, decide_eq_true_eq]

/-- The only error the auto-numbered splice loop can raise is the
must-provide-format one of string.tpp line 173. -/
theorem autoFormatLoop_error_must :
    ∀ (pairs : List (Arg × Nat)) (phs : List Placeholder) (buf : List Char)
      (off : Nat) (st : List Char × List Placeholder × Nat) (e : FmtError),
      autoFormatLoop pairs phs buf off = some (st, some e) →
      e = FmtError.mustProvideFormat := by
  intro pairs
  induction pairs with
  | nil =>
    intro phs buf off st e h
    simp [autoFormatLoop] at h
  | cons p rest ih =>
    intro phs buf off st e h
    cases phs with
    | nil => simp [autoFormatLoop] at h
    | cons ph phrest =>
      obtain ⟨arg, len⟩ := p
      cases arg with
      | bad =>
        simp [autoFormatLoop] at h
        exact h.2.symm
      | plain s =>
        simp only [autoFormatLoop] at h
        split at h
        · exact absurd h (by simp)
        · next heq =>
            simp at h
            exact ih _ _ _ _ _ (h.2 ▸ heq)
      | named nm s =>
        simp only [autoFormatLoop] at h
        split at h
        · exact absurd h (by simp)
        · next heq =>
            simp at h
            exact ih _ _ _ _ _ (h.2 ▸ heq)

/-- The only error the positional/named splice loop can raise is the
must-provide-format one of string.tpp line 363. -/
theorem posFormatLoop_error_must :
    ∀ (args : List Arg) (idxs : List Nat) (pidx : List PlaceholderIndices)
      (fs : List (List PlaceholderFormatter)) (buf : List Char)
      (phs : List Placeholder) (off : Nat)
      (st : List Char × List Placeholder × Nat) (e : FmtError),
      posFormatLoop args idxs pidx fs buf phs off = some (st, some e) →
      e = FmtError.mustProvideFormat := by
  intro args idxs
  induction idxs with
  | nil =>
    intro pidx fs buf phs off st e h
    simp [posFormatLoop] at h
  | cons i rest ih =>
    intro pidx fs buf phs off st e h
    simp only [posFormatLoop] at h
    cases hp : pidx.get? i with
    | none => rw [hp] at h; simp at h
    | some idc =>
      rw [hp] at h
      cases hq : phs.get? i with
      | none => rw [hq] at h; simp at h
      | some ph =>
        rw [hq] at h
        dsimp only at h
        by_cases hskip : idc.argument_index = args.length
        · rw [if_pos hskip] at h
          exact ih _ _ _ _ _ _ _ h
        · rw [if_neg hskip] at h
          cases ha : args.get? idc.argument_index with
          | none => rw [ha] at h; simp at h
          | some arg =>
            cases hf : fs.get? idc.argument_index with
            | none => rw [ha, hf] at h; simp at h
            | some recs =>
              rw [ha, hf] at h
              dsimp only at h
              cases hr : recs.get? idc.formatter_index with
              | none => rw [hr] at h; simp at h
              | some fm =>
                rw [hr] at h
                dsimp only at h
                cases arg with
                | bad =>
                  simp at h
                  exact h.2.symm
                | plain s =>
                  exact ih _ _ _ _ _ _ _ h
                | named nm s =>
                  exact ih _ _ _ _ _ _ _ h

/-- `firstNamedIndex` finds an index exactly when some argument is a
`NamedArgument`. -/
theorem firstNamedIndex_isSome :
    ∀ (args : List Arg) (i : Nat),
      (firstNamedIndex args i).isSome = args.any Arg.isNamed := by
  intro args
  induction args with
  | nil => intro i; simp [firstNamedIndex]
  | cons a rest ih =>
    intro i
    by_cases h : a.isNamed
    · simp [firstNamedIndex, h]
    · simp [firstNamedIndex, h, ih]

/-- When every argument is a plain value, the named-argument scan finds
nothing. -/
theorem firstNamedIndex_eq_none_of_plain :
    ∀ (args : List Arg) (i : Nat), args.all Arg.isPlain = true →
      firstNamedIndex args i = none := by
  intro args
  induction args with
  | nil => intro i _; rfl
  | cons a rest ih =>
    intro i h
    simp only [List.all_cons, Bool.and_eq_true] at h
    cases a with
    | plain s => simpa [firstNamedIndex, Arg.isNamed] using ih (i + 1) h.2
    | bad => simp [Arg.isPlain] at h
    | named nm s => simp [Arg.isPlain] at h

/-- The bounds-checking pass of the auto-numbered branch succeeds whenever
every scanned index is within both the argument list and the placeholder
list and the placeholder table indices are in range. -/
theorem autoInitCheck_of_bounds :
    ∀ (t : FormatString) (args : List Arg) (idxs : List Nat),
      (∀ i ∈ idxs, i < args.length ∧ i < t.m_placeholders.length) →
      (∀ ph ∈ t.m_placeholders,
        ph.identifier_index < t.m_identifiers.length ∧
        ph.specification_index < t.m_specifications.length) →
      autoInitCheck t args idxs = true := by
  intro t args idxs
  induction idxs with
  | nil => intro _ _; rfl
  | cons i rest ih =>
    intro hb hwf
    have hi := hb i (by simp)
    cases hp : t.m_placeholders.get? i with
    | none => rw [List.get?_eq_get hi.2] at hp; simp at hp
    | some ph =>
      have hw := hwf ph (List.get?_mem hp)
      have h1 : (t.m_identifiers.get? ph.identifier_index).isSome := by
        rw [List.get?_eq_get hw.1]; rfl
      have h2 : (t.m_specifications.get? ph.specification_index).isSome := by
        rw [List.get?_eq_get hw.2]; rfl
      have h3 : (args.get? i).isSome := by
        rw [List.get?_eq_get hi.1]; rfl
      simp only [autoInitCheck]
      rw [hp]
      dsimp only
      simp only [Bool.and_eq_true]
      exact ⟨⟨⟨h1, h2⟩, h3⟩, ih (fun j hj => hb j (List.mem_cons_of_mem _ hj)) hwf⟩

/-- Running the auto-numbered splice loop on plain arguments succeeds: the
processed prefix of the placeholder list comes back marked formatted, the
rest comes back untouched. -/
theorem autoFormatLoop_plain_success :
    ∀ (pairs : List (Arg × Nat)) (phs : List Placeholder) (buf : List Char)
      (off : Nat),
      (∀ p ∈ pairs, Arg.isPlain p.1 = true) →
      pairs.length ≤ phs.length →
      ∃ buf2 off2,
        autoFormatLoop pairs phs buf off =
          some ((buf2,
                 (phs.take pairs.length).map markFormatted ++ phs.drop pairs.length,
                 off2), none) := by
  intro pairs
  induction pairs with
  | nil =>
    intro phs buf off _ _
    exact ⟨buf, off, by simp [autoFormatLoop]⟩
  | cons p rest ih =>
    intro phs buf off hplain hlen
    cases phs with
    | nil => simp at hlen
    | cons ph phrest =>
      obtain ⟨arg, len⟩ := p
      have hpl : Arg.isPlain arg = true := hplain (arg, len) (by simp)
      cases arg with
      | bad => simp [Arg.isPlain] at hpl
      | named nm s => simp [Arg.isPlain] at hpl
      | plain s =>
        have hlen2 : rest.length ≤ phrest.length := by simpa using hlen
        obtain ⟨buf2, off2, hrec⟩ :=
          ih phrest
            (if len > 0 then
              insertAt buf (ph.position + off) (Arg.plain s).formattedText
            else buf)
            (off + len) (fun q hq => hplain q (List.mem_cons_of_mem _ hq)) hlen2
        refine ⟨buf2, off2, ?_⟩
        simp only [autoFormatLoop]
        rw [hrec]
        simp [markFormatted]

/-- Under the hypotheses of the auto-numbered branch, `format` reduces to
that branch. -/
theorem formatCall_auto (t : FormatString) (args : List Arg) (ph0 : Placeholder)
    (h0 : t.m_placeholders.get? 0 = some ph0)
    (h1 : t.m_identifiers.get? ph0.identifier_index = some Identifier.auto)
    (h2 : args.isEmpty = false) :
    formatCall t args = autoBranch t args := by
  unfold formatCall
  rw [h2, h0]
  dsimp only
  rw [h1]
  simp

/-- C10: the library's templated equality operator over two String-concept
values returns false for every pair of inputs, identical strings included,
and `icasecmp` returns true exactly when the two strings have equal length
and agree character-wise after lower-casing. -/
theorem c10_string_equality :
    (∀ a b : List Char, stringEqOp a b = false) ∧
    (∀ a b : List Char, icasecmp a b = true ↔
      a.length = b.length ∧ a.map tolowerChar = b.map tolowerChar) := by
  refine ⟨fun a b => rfl, fun a b => ?_⟩
  unfold icasecmp
  split
  next h => simp [icasecmpAux_eq_true_iff h, h]
  next h => simp [h]

/-- C10 witness: the theorem applied at concrete inputs - `"aB"` never
equals itself under the templated operator while `icasecmp` accepts it
against `"Ab"`. -/
theorem c10_string_equality_witness :
    stringEqOp ['a', 'B'] ['a', 'B'] = false ∧
      icasecmp ['a', 'B'] ['A', 'b'] = true :=
  ⟨c10_string_equality.1 ['a', 'B'] ['a', 'B'],
   (c10_string_equality.2 ['a', 'B'] ['A', 'b']).mpr (by decide)⟩

/-- C5: evaluation of `one_of` at the failing inputs.  With exactly two
aliases the `sizeof...(Ts) == 1` shortcut of line 394 bypasses the
ambiguity machinery: on a specification containing both `width` and `w` it
returns the `width` specifier instead of failing with the ambiguous-
specifier error, and on a specification containing only `w` it fails with
the missing-specifier error of `get_specifier` instead of returning the `w`
value.  With three aliases the general path runs and does report
ambiguity. -/
theorem c5_one_of_two_alias_eval :
    one_of specWidthBoth widthName [wName] = Except.ok ⟨widthName, ['5']⟩ ∧
    one_of specOnlyW widthName [wName] = Except.error FmtError.missingSpecifier ∧
    one_of specWidthBoth widthName [wName, widName] =
      Except.error FmtError.ambiguousSpecifier :=
  ⟨rfl, rfl, rfl⟩

/-- C1: evaluation of `format("{1} {0} {1}", "a", "b")`.  Because the
computed placeholder-to-argument indices are appended after the `resize`d
zero entries (string.tpp lines 227-256) while the loops read the first
entries only, every placeholder resolves to argument 0 and the call
produces `"a a a"`, not the `"b a b"` the spec states. -/
theorem c1_positional_reuse_eval :
    formatCall tmplPositionalReuse [Arg.plain ['a'], Arg.plain ['b']] =
      some ({ tmplPositionalReuse with
                m_format := ['a', ' ', 'a', ' ', 'a'],
                m_placeholders := [] }, none) ∧
    (['a', ' ', 'a', ' ', 'a'] : List Char) ≠ ['b', ' ', 'a', ' ', 'b'] := by
  exact ⟨by decide, by decide⟩

/-- C2: evaluation of the Tier B pair of `IntegerFormatter` at the default
(decimal) representation and value 42: `reserve` has no defined result (the
switch's decimal case is `break;` with no return and `to_decimal` is an
empty stub) and `format_to` writes no characters, so `format_to` cannot
write "exactly `reserve(value)` characters". -/
theorem c2_integer_decimal_tier_b_eval :
    IntegerFormatter.mkDefault.representation = Representation.decimal ∧
    IntegerFormatter.mkDefault.reserve 32 42 = none ∧
    IntegerFormatter.mkDefault.format_to_writes 32 42 = some [] := by
  exact ⟨rfl, rfl, rfl⟩

/-- C8: evaluation of the unordered-map formatter.  The pair (1, 2) under
binary integer formatters renders as `"{ '1': '10' }"`: the numeric key and
value are surrounded by single quotes, contradicting the quoting policy
stated by the spec and by the source's own comments (string.tpp lines
1636-1641).  The empty map does render as `"{ }"`. -/
theorem c8_map_quoting_eval :
    unordered_map_format_int 32 binaryIntFormatter binaryIntFormatter [(1, 2)] =
      some [openBraceChar, ' ', singleQuoteChar, '1', singleQuoteChar, ':', ' ',
            singleQuoteChar, '1', '0', singleQuoteChar, ' ', closeBraceChar] ∧
    unordered_map_format_int 32 binaryIntFormatter binaryIntFormatter [] =
      some emptyMapText := by
  exact ⟨by decide, by decide⟩

/-- C9: evaluation of the auto-numbered branch on the template `"{}"` with
two arguments: the initialization and formatting loops run the index up to
the argument count (string.tpp lines 123, 143) and read
`m_placeholders[1]` past the end of the placeholder list, so the execution
has no defined result. -/
theorem c9_out_of_bounds_eval :
    formatCall tmplAutoOne [Arg.plain ['a'], Arg.plain ['b']] = none := by
  decide

/-- C3 counterexample: `format("{} {}", a, bad)` - where the second
argument's Formatter lacks a `format` function - throws from the middle of
the splice loop (string.tpp line 173) after the first placeholder was
already spliced: the call fails, yet the template's buffer has changed from
`" "` to `"a "` and the first placeholder is marked formatted, so the
failed call is not all-or-nothing. -/
theorem c3_counterexample_partial_splice :
    formatCall tmplAutoTwo [Arg.plain ['a'], Arg.bad] =
      some ({ tmplAutoTwo with
                m_format := ['a', ' '],
                m_placeholders := [⟨0, 0, 0, true⟩, ⟨0, 0, 1, false⟩] },
            some FmtError.mustProvideFormat) ∧
    (['a', ' '] : List Char) ≠ tmplAutoTwo.m_format := by
  exact ⟨by decide, by decide⟩

/-- C4 counterexample: `format("{} {}", "a")` - one argument for two
auto-numbered placeholders - succeeds with no error of any kind: the first
placeholder is formatted, the second stays pending with its position
shifted, exactly the behavior the claim says should instead fail with
`ArgumentCountMismatch`. -/
theorem c4_counterexample_fewer_args_succeeds :
    formatCall tmplAutoTwo [Arg.plain ['a']] =
      some ({ tmplAutoTwo with
                m_format := ['a', ' '],
                m_placeholders := [⟨0, 0, 2, false⟩] }, none) := by
  decide

/-- C6 counterexample: an auto-numbered template rejects a `NamedArgument`
whose name `"__src"` begins with the reserved `__` prefix - the check of
string.tpp lines 113-117 throws for every `NamedArgument` with no
reserved-name exemption, so the reserved argument does cause the call to
fail with `InvalidArgument`. -/
theorem c6_counterexample_reserved_name_rejected :
    formatCall tmplAutoTwo [Arg.named reservedName ['x']] =
      some (tmplAutoTwo, some (FmtError.invalidArgument 0)) := by
  decide

/-- C7 counterexample: for a `double` (`digits10 = 15`) with no precision
specifier the fixed-representation path emits 6 fractional digits - the
hard-coded default of string.tpp line 1372 - and not the 15 the claim's
"type's guaranteed round-trip digit count" requires. -/
theorem c7_counterexample_default_precision :
    (fixedFractionOutput 15 0 (List.replicate (conversion_precision 15 0) '5')).length = 6 ∧
    ¬(fixedFractionOutput 15 0
        (List.replicate (conversion_precision 15 0) '5')).length = 15 := by
  exact ⟨by decide, by decide⟩

/-- C4 (amended): calling `format` on an auto-numbered template with fewer
arguments than placeholders does not fail at all - there is no
`ArgumentCountMismatch` - and in particular does not fail with an
argument-count error: the supplied arguments format the first placeholders,
which are then dropped from the placeholder list, and exactly the leftover
placeholders (placeholder count minus argument count) remain pending for a
future call (string.tpp lines 109-110, 184-186, 376-381). -/
theorem c4_fewer_arguments_amended :
    ∀ (t : FormatString) (args : List Arg) (ph0 : Placeholder),
      t.m_placeholders.get? 0 = some ph0 →
      t.m_identifiers.get? ph0.identifier_index = some Identifier.auto →
      args ≠ [] →
      args.all Arg.isPlain = true →
      args.length ≤ t.m_placeholders.length →
      (∀ ph ∈ t.m_placeholders,
        ph.identifier_index < t.m_identifiers.length ∧
        ph.specification_index < t.m_specifications.length) →
      (∀ ph ∈ t.m_placeholders, ph.formatted = false) →
      ∃ t2, formatCall t args = some (t2, none) ∧
        t2.m_placeholders.length = t.m_placeholders.length - args.length := by
  intro t args ph0 h0 h1 h2 hplain hle hwf hunf
  have hie : args.isEmpty = false := by
    cases args with
    | nil => exact absurd rfl h2
    | cons a l => rfl
  rw [formatCall_auto t args ph0 h0 h1 hie]
  unfold autoBranch
  rw [firstNamedIndex_eq_none_of_plain args 0 hplain]
  have hchk : autoInitCheck t args (List.range args.length) = true := by
    refine autoInitCheck_of_bounds t args _ (fun i hi => ?_) hwf
    have hilt : i < args.length := List.mem_range.1 hi
    exact ⟨hilt, lt_of_lt_of_le hilt hle⟩
  rw [if_pos hchk]
  have hplen : (args.zip (args.map Arg.reserveLen)).length = args.length := by simp
  have hpairplain :
      ∀ p ∈ args.zip (args.map Arg.reserveLen), Arg.isPlain p.1 = true := by
    intro p hp
    exact (List.all_eq_true.1 hplain) p.1 (List.of_mem_zip hp).1
  obtain ⟨buf2, off2, hloop⟩ :=
    autoFormatLoop_plain_success (args.zip (args.map Arg.reserveLen))
      t.m_placeholders t.m_format 0 hpairplain (by rw [hplen]; exact hle)
  rw [hplen] at hloop
  dsimp only
  rw [hloop]
  dsimp only
  refine ⟨_, rfl, ?_⟩
  have htake :
      ((t.m_placeholders.take args.length).map markFormatted).length = args.length := by
    simp [List.length_take, Nat.min_eq_left hle]
  unfold bumpSuffix eraseFormatted
  rw [List.take_left' htake, List.drop_left' htake, List.filter_append]
  have hfil1 :
      ((t.m_placeholders.take args.length).map markFormatted).filter
        (fun ph => !ph.formatted) = [] := by
    rw [List.filter_eq_nil_iff]
    intro a ha
    obtain ⟨ph, _, rfl⟩ := List.mem_map.1 ha
    simp [markFormatted]
  have hfil2 :
      ((t.m_placeholders.drop args.length).map
          (fun ph => { ph with position := ph.position + off2 })).filter
        (fun ph => !ph.formatted) =
      (t.m_placeholders.drop args.length).map
        (fun ph => { ph with position := ph.position + off2 }) := by
    rw [List.filter_eq_self]
    intro a ha
    obtain ⟨ph, hph, rfl⟩ := List.mem_map.1 ha
    have hf := hunf ph (List.mem_of_mem_drop hph)
    simp [hf]
  rw [hfil1, hfil2]
  simp

/-- C4 witness: the amended theorem applied to `format("{} {}", "a")` - the
call succeeds and one placeholder remains. -/
theorem c4_fewer_arguments_amended_witness :
    ∃ t2, formatCall tmplAutoTwo [Arg.plain ['a']] = some (t2, none) ∧
      t2.m_placeholders.length = tmplAutoTwo.m_placeholders.length - 1 :=
  c4_fewer_arguments_amended tmplAutoTwo [Arg.plain ['a']] ⟨0, 0, 0, false⟩
    (by decide) (by decide) (by decide) (by decide) (by decide)
    (by decide) (by decide)

/-- A failing positional/named-branch call whose error is not the
splice-phase must-provide-format one failed in argument validation, before
any mutation: the template comes back unchanged. -/
theorem positionalBranch_error_state :
    ∀ (t : FormatString) (args : List Arg) (t2 : FormatString) (e : FmtError),
      positionalBranch t args = some (t2, some e) →
      e ≠ FmtError.mustProvideFormat →
      t2 = t := by
  intro t args t2 e hcall hne
  unfold positionalBranch at hcall
  cases hoc : orderCheckLoop args 0 false 0 with
  | error e1 =>
    rw [hoc] at hcall
    dsimp only at hcall
    simp at hcall
    exact hcall.1.symm
  | ok pcount =>
    rw [hoc] at hcall
    dsimp only at hcall
    cases hdup : findDupOuter args ((List.range args.length).drop pcount) with
    | some pr =>
      obtain ⟨i, j⟩ := pr
      rw [hdup] at hcall
      dsimp only at hcall
      simp at hcall
      exact hcall.1.symm
    | none =>
      rw [hdup] at hcall
      dsimp only at hcall
      cases hbi : buildPlaceholderIndices t args pcount with
      | none => rw [hbi] at hcall; simp at hcall
      | some pidx0 =>
        rw [hbi] at hcall
        dsimp only at hcall
        cases hinit : posInitLoop t args (List.range t.m_placeholders.length) pidx0
            (List.replicate args.length []) with
        | none => rw [hinit] at hcall; simp at hcall
        | some pr =>
          obtain ⟨pidx1, fs1⟩ := pr
          rw [hinit] at hcall
          dsimp only at hcall
          cases hloop : posFormatLoop args (List.range t.m_placeholders.length) pidx1 fs1
              t.m_format t.m_placeholders 0 with
          | none => rw [hloop] at hcall; simp at hcall
          | some pr2 =>
            obtain ⟨⟨buf, phs, off⟩, eo⟩ := pr2
            cases eo with
            | none => rw [hloop] at hcall; simp at hcall
            | some e2 =>
              have hm := posFormatLoop_error_must _ _ _ _ _ _ _ _ _ hloop
              rw [hloop] at hcall
              dsimp only at hcall
              simp at hcall
              exact absurd (hcall.2.symm.trans hm) hne

/-- C3 (amended): a `format` call that fails during argument validation -
with any error other than the splice-phase must-provide-format throw -
leaves the caller-visible template state (text buffer and placeholder list)
exactly as it was before the call.  (The counterexample shows a splice-
phase failure is not all-or-nothing: earlier placeholders stay spliced.) -/
theorem c3_validation_all_or_nothing :
    ∀ (t : FormatString) (args : List Arg) (t2 : FormatString) (e : FmtError),
      formatCall t args = some (t2, some e) →
      e ≠ FmtError.mustProvideFormat →
      t2 = t := by
  intro t args t2 e hcall hne
  unfold formatCall at hcall
  by_cases hie : args.isEmpty = true
  · rw [if_pos hie] at hcall
    simp at hcall
  · rw [if_neg hie] at hcall
    cases h0 : t.m_placeholders.get? 0 with
    | none => rw [h0] at hcall; simp at hcall
    | some ph0 =>
      rw [h0] at hcall
      dsimp only at hcall
      cases h1 : t.m_identifiers.get? ph0.identifier_index with
      | none => rw [h1] at hcall; simp at hcall
      | some ident =>
        rw [h1] at hcall
        cases ident with
        | auto =>
          dsimp only at hcall
          unfold autoBranch at hcall
          cases hfn : firstNamedIndex args 0 with
          | some i =>
            rw [hfn] at hcall
            dsimp only at hcall
            simp at hcall
            exact hcall.1.symm
          | none =>
            rw [hfn] at hcall
            dsimp only at hcall
            by_cases hchk : autoInitCheck t args (List.range args.length) = true
            · rw [if_pos hchk] at hcall
              cases hloop : autoFormatLoop (args.zip (args.map Arg.reserveLen))
                  t.m_placeholders t.m_format 0 with
              | none => rw [hloop] at hcall; simp at hcall
              | some pr =>
                obtain ⟨⟨buf, phs, off⟩, eo⟩ := pr
                cases eo with
                | none => rw [hloop] at hcall; simp at hcall
                | some e2 =>
                  have hm := autoFormatLoop_error_must _ _ _ _ _ _ hloop
                  rw [hloop] at hcall
                  dsimp only at hcall
                  simp at hcall
                  exact absurd (hcall.2.symm.trans hm) hne
            · rw [if_neg hchk] at hcall
              simp at hcall
        | position p =>
          dsimp only at hcall
          exact positionalBranch_error_state t args t2 e hcall hne
        | name nm =>
          dsimp only at hcall
          exact positionalBranch_error_state t args t2 e hcall hne

/-- C3 witness: the amended theorem applied to a validation failure - a
named argument against the auto-numbered template `"{} {}"` - whose
returned template is unchanged. -/
theorem c3_validation_all_or_nothing_witness :
    formatCall tmplAutoTwo [Arg.named reservedName ['x']] =
        some (tmplAutoTwo, some (FmtError.invalidArgument 0)) ∧
      tmplAutoTwo = tmplAutoTwo :=
  ⟨by decide,
   c3_validation_all_or_nothing tmplAutoTwo [Arg.named reservedName ['x']]
     tmplAutoTwo (FmtError.invalidArgument 0) (by decide) (by decide)⟩

/-- C6 (amended): for an auto-numbered template, `format` fails with
`InvalidArgument` exactly when a `NamedArgument` - with any name, the
reserved `__` prefix included - appears among the arguments: the check of
string.tpp lines 113-117 throws for every `NamedArgument`, and nothing else
in the branch raises `InvalidArgument`. -/
theorem c6_named_argument_iff_amended :
    ∀ (t : FormatString) (args : List Arg) (ph0 : Placeholder),
      t.m_placeholders.get? 0 = some ph0 →
      t.m_identifiers.get? ph0.identifier_index = some Identifier.auto →
      args ≠ [] →
      ((∃ t2 i, formatCall t args = some (t2, some (FmtError.invalidArgument i))) ↔
        args.any Arg.isNamed = true) := by
  intro t args ph0 h0 h1 h2
  have hie : args.isEmpty = false := by
    cases args with
    | nil => exact absurd rfl h2
    | cons a l => rfl
  rw [formatCall_auto t args ph0 h0 h1 hie]
  constructor
  · rintro ⟨t2, i, hcall⟩
    by_contra hany
    have hnone : firstNamedIndex args 0 = none := by
      cases hfi : firstNamedIndex args 0 with
      | none => rfl
      | some j =>
        have hs := firstNamedIndex_isSome args 0
        rw [hfi] at hs
        simp only [Option.isSome_some] at hs
        exact absurd hs.symm hany
    unfold autoBranch at hcall
    rw [hnone] at hcall
    dsimp only at hcall
    by_cases hchk : autoInitCheck t args (List.range args.length) = true
    · rw [if_pos hchk] at hcall
      cases hloop : autoFormatLoop (args.zip (args.map Arg.reserveLen))
          t.m_placeholders t.m_format 0 with
      | none => rw [hloop] at hcall; simp at hcall
      | some pr =>
        obtain ⟨⟨buf, phs, off⟩, eo⟩ := pr
        cases eo with
        | none => rw [hloop] at hcall; simp at hcall
        | some e2 =>
          have hm := autoFormatLoop_error_must _ _ _ _ _ _ hloop
          rw [hloop] at hcall
          dsimp only at hcall
          simp at hcall
          rw [hm] at hcall
          exact absurd hcall.2 (by simp)
    · rw [if_neg hchk] at hcall
      simp at hcall
  · intro hany
    have hs : (firstNamedIndex args 0).isSome := by
      rw [firstNamedIndex_isSome]
      exact hany
    obtain ⟨i, hi⟩ := Option.isSome_iff_exists.1 hs
    refine ⟨t, i, ?_⟩
    unfold autoBranch
    rw [hi]

/-- C6 witness: the amended theorem applied to the template `"{} {}"` with
the reserved-named argument `"__src"` - the call does fail with
`InvalidArgument`. -/
theorem c6_named_argument_iff_amended_witness :
    ∃ t2 i, formatCall tmplAutoTwo [Arg.named reservedName ['x']] =
      some (t2, some (FmtError.invalidArgument i)) :=
  (c6_named_argument_iff_amended tmplAutoTwo [Arg.named reservedName ['x']]
      ⟨0, 0, 0, false⟩ (by decide) (by decide) (by decide)).mpr (by decide)

/-- C7 (amended): the fixed-representation floating-point path emits
`precision` fractional digits when a precision specifier was parsed and 6
for every floating-point type otherwise - not the type-dependent round-trip
digit count - and the digits beyond the type's `digits10` clamp are literal
zero padding. -/
theorem c7_default_precision_amended :
    ∀ (digits10 precision : Nat) (convDigits : List Char),
      convDigits.length = conversion_precision digits10 precision →
      (fixedFractionOutput digits10 precision convDigits).length =
          num_significant_figures precision ∧
        (fixedFractionOutput digits10 precision convDigits).drop
            (conversion_precision digits10 precision) =
          List.replicate (fake_precision_zeros digits10 precision) '0' := by
  intro digits10 precision convDigits hlen
  constructor
  · unfold fixedFractionOutput fake_precision_zeros
    rw [List.length_append, hlen, List.length_replicate]
    exact Nat.add_sub_cancel' (Nat.min_le_left _ _)
  · unfold fixedFractionOutput
    exact List.drop_left' hlen

/-- C7 witness: the amended theorem applied at `digits10 = 10` with a
requested precision of 13: ten conversion digits are emitted and three
literal zeros are appended, for 13 fractional digits in total. -/
theorem c7_default_precision_amended_witness :
    (List.replicate 10 'x').length = conversion_precision 10 13 ∧
      ((fixedFractionOutput 10 13 (List.replicate 10 'x')).length =
          num_significant_figures 13 ∧
        (fixedFractionOutput 10 13 (List.replicate 10 'x')).drop
            (conversion_precision 10 13) =
          List.replicate (fake_precision_zeros 10 13) '0') :=
  ⟨by decide, c7_default_precision_amended 10 13 (List.replicate 10 'x') (by decide)⟩

end UtilsFormat
